import Mathlib

/-!
Verification of the sales-dashboard pipeline (src/dashboard.py).

A pandas DataFrame is modelled as a `Table`: a list of column names plus a
list of rows, each row an association list from column name to `Cell`.
A `Cell` is missing (`na`, modelling NaN), a string, or a rational number
(modelling the float values exactly; all numbers that arise in the claims
are exactly representable).
-/

inductive Cell where
  | na : Cell
  | str : String → Cell
  | num : ℚ → Cell
deriving DecidableEq, Repr

/-- One row of a DataFrame: an association list column-name ↦ cell. -/
abbrev Record : Type := List (String × Cell)

/-- A DataFrame: its column list and its rows. -/
structure Table where
  cols : List String
  rows : List Record
deriving DecidableEq, Repr

/-- Reading a cell of a row; a column not bound in the row reads as NaN. -/
def getCell (r : Record) (c : String) : Cell :=
  (List.lookup c r).getD Cell.na

/-- Assigning a column of a row (pandas `df[c] = v` at row level). -/
def setCol (r : Record) (c : String) (v : Cell) : Record :=
  (c, v) :: r.filter (fun p => p.1 != c)

/-- Model of the external numeric parser used by `pd.to_numeric`:
an optional sign, a digit string, optionally a fractional digit string.
Anything else fails.  The claims depend only on the parser having type
`String → Option ℚ`, never on its exact grammar. -/
def parseDigits (cs : List Char) : Option ℕ :=
  if cs = [] then none
  else if cs.all Char.isDigit then
    some (cs.foldl (fun n c => 10 * n + (c.toNat - 48)) 0)
  else none

def parseNumericChars (cs : List Char) : Option ℚ :=
  match cs.splitOn '.' with
  | [whole] => (parseDigits whole).map (fun n => (n : ℚ))
  | [whole, frac] =>
    match parseDigits whole, parseDigits frac with
    | some w, some f => some ((w : ℚ) + (f : ℚ) / ((10 : ℚ) ^ frac.length))
    | _, _ => none
  | _ => none

def parseNumeric (s : String) : Option ℚ :=
  match s.toList with
  | '-' :: rest => (parseNumericChars rest).map (fun q => -q)
  | cs => parseNumericChars cs

/-- `pd.to_numeric(·, errors="coerce").fillna(0)` applied to one cell:
numbers pass through, NaN and every parse failure become 0. -/
def coerce (c : Cell) : ℚ :=
  match c with
  | Cell.na => 0
  | Cell.num q => q
  | Cell.str s => (parseNumeric s).getD 0

/-- Numeric view of a cell, as used in arithmetic over already-coerced
columns (`Sales Volume`, `price`, `Revenue` are `num` cells there). -/
def asQ (c : Cell) : ℚ :=
  match c with
  | Cell.num q => q
  | _ => 0

/-- `df[col] > 0` on one cell: true only for a positive number
(NaN compares false, as in pandas). -/
def posCell (c : Cell) : Bool :=
  match c with
  | Cell.num q => decide (0 < q)
  | _ => false

/-- The fixed expected-column list of dashboard.py. -/
def expected_cols : List String :=
  ["Product ID", "Product Position", "Promotion", "Product Category",
   "Seasonal", "Sales Volume", "brand", "url", "name", "description",
   "price", "currency", "terms", "section", "season", "material", "origin"]

/-- `df[c] = ""` when column `c` is absent: add the column, empty string
in every row. -/
def addEmptyCol (t : Table) (c : String) : Table :=
  ⟨t.cols ++ [c], t.rows.map (fun r => setCol r c (Cell.str ""))⟩

/-- The `for c in expected_cols: if c not in df.columns: df[c] = ""` loop,
written as structural recursion over the column list. -/
def fillList : Table → List String → Table
  | t, [] => t
  | t, c :: l => fillList (if c ∈ t.cols then t else addEmptyCol t c) l

def fillMissing (t : Table) : Table :=
  fillList t expected_cols

/-- Lines 29–30: coerce `Sales Volume`, then `price`, in every row. -/
def coerceRow (r : Record) : Record :=
  setCol (setCol r "Sales Volume" (Cell.num (coerce (getCell r "Sales Volume"))))
    "price"
    (Cell.num (coerce (getCell (setCol r "Sales Volume"
      (Cell.num (coerce (getCell r "Sales Volume")))) "price")))

def coerceCols (t : Table) : Table :=
  ⟨t.cols, t.rows.map coerceRow⟩

/-- The Schema Normalizer: fill absent expected columns with "",
then coerce the two numeric columns. -/
def normalizeTable (t : Table) : Table :=
  coerceCols (fillMissing t)

/-- The row predicate of line 32: `Sales Volume > 0 ∧ price > 0`. -/
def cleanPred (r : Record) : Bool :=
  posCell (getCell r "Sales Volume") && posCell (getCell r "price")

/-- Lines 32–33: filter to positive-volume/positive-price rows and derive
`Revenue = Sales Volume * price`. -/
def filterDerive (t : Table) : Table :=
  ⟨(if "Revenue" ∈ t.cols then t.cols else t.cols ++ ["Revenue"]),
   (t.rows.filter cleanPred).map
     (fun r => setCol r "Revenue"
        (Cell.num (asQ (getCell r "Sales Volume") * asQ (getCell r "price"))))⟩

/-- Distinct elements of a list, first occurrence kept. -/
def dedupF : List Cell → List Cell
  | [] => []
  | c :: l => c :: (dedupF l).filter (fun x => x != c)

/-- The distinct non-NaN key values of a column, in encounter order
(pandas `groupby` drops NaN keys; the key order is irrelevant here because
every aggregate is re-sorted by summed Sales Volume afterwards). -/
def groupKeys (rows : List Record) (col : String) : List Cell :=
  dedupF (rows.filterMap (fun r =>
    match getCell r col with
    | Cell.na => none
    | c => some c))

/-- Summed Sales Volume of the group with key `k`. -/
def groupSumFor (rows : List Record) (col : String) (k : Cell) : ℚ :=
  ((rows.filter (fun r => getCell r col == k)).map
    (fun r => asQ (getCell r "Sales Volume"))).sum

/-- Sort key of an aggregate row: its summed Sales Volume. -/
def svKey (r : Record) : ℚ :=
  asQ (getCell r "Sales Volume")

/-- Insertion into a non-increasing list (models `sort_values(ascending=False)`;
tie order among equal sums is implementation-defined in the source). -/
def insertDesc (a : Record) : List Record → List Record
  | [] => [a]
  | b :: l => if svKey b < svKey a then a :: b :: l else b :: insertDesc a l

def sortDesc : List Record → List Record
  | [] => []
  | a :: l => insertDesc a (sortDesc l)

/-- `df.groupby(col, as_index=False)["Sales Volume"].sum()
      .sort_values("Sales Volume", ascending=False)` -/
def groupSumAll (t : Table) (col : String) : Table :=
  ⟨[col, "Sales Volume"],
   sortDesc ((groupKeys t.rows col).map
     (fun k => [(col, k), ("Sales Volume", Cell.num (groupSumFor t.rows col k))]))⟩

/-- The guarded aggregator `g` of lines 46–49. -/
def g (t : Table) (col : String) : Table :=
  if col ∈ t.cols ∧ t.rows ≠ [] then groupSumAll t col else ⟨[], []⟩

/-- `topN`: the grouped sum followed by `.head(n)` (line 56 with n = 10). -/
def topN (t : Table) (col : String) (n : ℕ) : Table :=
  ⟨[col, "Sales Volume"], (groupSumAll t col).rows.take n⟩

/-- KPI: `df_clean["Revenue"].sum()` (pandas sum skips NaN; empty sum is 0). -/
def total_revenue (clean : Table) : ℚ :=
  (clean.rows.filterMap (fun r =>
    match getCell r "Revenue" with
    | Cell.num q => some q
    | _ => none)).sum

/-- KPI: `df_clean["Sales Volume"].sum()`. -/
def total_units (clean : Table) : ℚ :=
  (clean.rows.filterMap (fun r =>
    match getCell r "Sales Volume" with
    | Cell.num q => some q
    | _ => none)).sum

/-- KPI: `df_clean["price"].mean()`.  The mean of an empty (or all-NaN)
series is NaN, modelled as `none`. -/
def avg_price (clean : Table) : Option ℚ :=
  let vals := clean.rows.filterMap (fun r =>
    match getCell r "price" with
    | Cell.num q => some q
    | _ => none)
  if vals = [] then none else some (vals.sum / vals.length)

/-- KPI: `df_clean["Product ID"].nunique()` (distinct non-NaN values). -/
def unique_products (clean : Table) : ℕ :=
  (dedupF (clean.rows.filterMap (fun r =>
    match getCell r "Product ID" with
    | Cell.na => none
    | c => some c))).length

/-- The four routing targets. -/
inductive Page where
  | overview : Page
  | details : Page
  | advanced : Page
  | insights : Page
deriving DecidableEq, Repr

/-- The routing callback `change_page` (lines 205–214). -/
def change_page (path : String) : Page :=
  if path = "/details" then Page.details
  else if path = "/advanced" then Page.advanced
  else if path = "/insights" then Page.insights
  else Page.overview

/-- Rendering a cell value into an f-string (Python `str()`). -/
def showCell (c : Cell) : String :=
  match c with
  | Cell.na => "nan"
  | Cell.str s => s
  | Cell.num q => toString q

/-- The Product-Position insight sentence, or "" for an empty table. -/
def posSentence (byPos : Table) : String :=
  match byPos.rows with
  | [] => ""
  | r :: _ =>
    "Most sales come from the '" ++ showCell (getCell r "Product Position")
      ++ "' position."

/-- The season insight sentence, or "" for an empty table. -/
def seasonSentence (bySeason : Table) : String :=
  match bySeason.rows with
  | [] => ""
  | r :: _ => "Top season: " ++ showCell (getCell r "season")

/-- The origin insight sentence, or "" for an empty table. -/
def originSentence (byOrigin : Table) : String :=
  match byOrigin.rows with
  | [] => ""
  | r :: _ => "Strongest region: " ++ showCell (getCell r "origin")

/-- The `insights` list of page_insights (lines 161–165). -/
def insightsRaw (byPos bySeason byOrigin : Table) : List String :=
  [posSentence byPos, seasonSentence bySeason, originSentence byOrigin]

/-- The rendered insight items: `[... for i in insights if i != ""]`. -/
def insightsShown (byPos bySeason byOrigin : Table) : List String :=
  (insightsRaw byPos bySeason byOrigin).filter (fun i => i != "")

/-! ### Concrete example tables used by witnesses and counterexamples -/

/-- Sum of the Sales Volume column of an aggregate table. -/
def aggUnits (t : Table) : ℚ :=
  (t.rows.map svKey).sum

/-- A three-row raw table: one valid row, one zero-volume row, one
unparseable-price row (section 8 item 6 of the specification). -/
def exampleRaw : Table :=
  ⟨["Sales Volume", "price", "Product Position"],
   [[("Sales Volume", Cell.str "10"), ("price", Cell.str "2"),
     ("Product Position", Cell.str "Shelf A")],
    [("Sales Volume", Cell.str "0"), ("price", Cell.str "5"),
     ("Product Position", Cell.str "Shelf B")],
    [("Sales Volume", Cell.str "3"), ("price", Cell.str "bad"),
     ("Product Position", Cell.str "Shelf A")]]⟩

/-- The single Clean Record the pipeline produces from `exampleRaw`,
with its numeric cells written as the cast/product terms the pipeline
builds (rational arithmetic is kept symbolic). -/
def exampleCleanRow : Record :=
  [("Revenue", Cell.num (((10 : ℕ) : ℚ) * ((2 : ℕ) : ℚ))),
   ("price", Cell.num ((2 : ℕ) : ℚ)), ("Sales Volume", Cell.num ((10 : ℕ) : ℚ)),
   ("origin", Cell.str ""), ("material", Cell.str ""), ("season", Cell.str ""),
   ("section", Cell.str ""), ("terms", Cell.str ""), ("currency", Cell.str ""),
   ("description", Cell.str ""), ("name", Cell.str ""), ("url", Cell.str ""),
   ("brand", Cell.str ""), ("Seasonal", Cell.str ""), ("Product Category", Cell.str ""),
   ("Promotion", Cell.str ""), ("Product ID", Cell.str ""),
   ("Product Position", Cell.str "Shelf A")]

/-- A table with two distinct `name` groups. -/
def exampleNames : Table :=
  ⟨["name", "Sales Volume"],
   [[("name", Cell.str "a"), ("Sales Volume", Cell.num 5)],
    [("name", Cell.str "b"), ("Sales Volume", Cell.num 3)],
    [("name", Cell.str "a"), ("Sales Volume", Cell.num 2)]]⟩

/-- A raw table whose second row has a missing (NaN) `origin` cell while
both rows survive the positivity filter. -/
def exampleNaKey : Table :=
  ⟨["Sales Volume", "price", "origin"],
   [[("Sales Volume", Cell.str "5"), ("price", Cell.str "1"),
     ("origin", Cell.str "X")],
    [("Sales Volume", Cell.str "3"), ("price", Cell.str "1")]]⟩

/-! ### Lemmas about record access and update -/

theorem lookup_filter_ne {r : Record} {c d : String} (h : d ≠ c) :
    List.lookup d (r.filter (fun p => p.1 != c)) = List.lookup d r := by
  induction r with
  | nil => rfl
  | cons a l ih =>
    by_cases hac : a.1 = c
    · have hb : (d == a.1) = false := beq_eq_false_iff_ne.mpr (hac ▸ h)
      have hf : (a.1 != c) = false := by simp [hac]
      simp [List.filter_cons, hf, List.lookup, hb, ih]
    · have hf : (a.1 != c) = true := by simp [hac]
      cases hd : d == a.1 with
      | true => simp [List.filter_cons, hf, List.lookup, hd]
      | false => simp [List.filter_cons, hf, List.lookup, hd, ih]

theorem getCell_setCol_same (r : Record) (c : String) (v : Cell) :
    getCell (setCol r c v) c = v := by
  simp [getCell, setCol, List.lookup]

theorem getCell_setCol_ne (r : Record) {c d : String} (v : Cell) (h : d ≠ c) :
    getCell (setCol r c v) d = getCell r d := by
  have hb : (d == c) = false := beq_eq_false_iff_ne.mpr h
  simp [getCell, setCol, List.lookup, hb, lookup_filter_ne h]

theorem filter_idem (l : Record) (p : String × Cell → Bool) :
    (l.filter p).filter p = l.filter p := by
  rw [List.filter_filter]
  simp

theorem setCol_setCol_cancel (x : Record) (c : String) (v w : Cell) :
    setCol (setCol x c w) c v = setCol x c v := by
  have hf : ((c, w).1 != c) = false := by simp
  simp [setCol, List.filter_cons, hf, filter_idem]

/-! ### Idempotence of the Schema Normalizer -/

theorem filter_filter_idem (l : Record) (p q : String × Cell → Bool) :
    (((l.filter q).filter p).filter q).filter p = (l.filter q).filter p := by
  rw [List.filter_filter, List.filter_filter, List.filter_filter, List.filter_filter]
  apply List.filter_congr
  intro a _
  cases hp : p a <;> cases hq : q a <;> simp [hp, hq]

theorem setCol_quad (r : Record) (c d : String) (a b : Cell) (h : c ≠ d) :
    setCol (setCol (setCol (setCol r c a) d b) c a) d b = setCol (setCol r c a) d b := by
  have h1 : ((c, a).1 != d) = true := by simp [h]
  have h2 : ((d, b).1 != c) = true := by simp [Ne.symm h]
  have h3 : ((c, a).1 != c) = false := by simp
  have h4 : ((d, b).1 != d) = false := by simp
  simp only [setCol, List.filter_cons, h1, h2, h3, h4, Bool.false_eq_true, if_true, if_false]
  rw [filter_filter_idem]

theorem coerceRow_idem (r : Record) : coerceRow (coerceRow r) = coerceRow r := by
  have hps : ("price" : String) ≠ "Sales Volume" := by decide
  have hsp : ("Sales Volume" : String) ≠ "price" := by decide
  set va := Cell.num (coerce (getCell r "Sales Volume")) with hva
  set r1 := setCol r "Sales Volume" va with hr1
  set vb := Cell.num (coerce (getCell r1 "price")) with hvb
  have hcr : coerceRow r = setCol r1 "price" vb := rfl
  have hgetSV : getCell (coerceRow r) "Sales Volume" = va := by
    rw [hcr, getCell_setCol_ne _ _ hsp, hr1, getCell_setCol_same]
  have hva2 : Cell.num (coerce (getCell (coerceRow r) "Sales Volume")) = va := by
    rw [hgetSV, hva]
    rfl
  have hgetP : getCell (setCol (coerceRow r) "Sales Volume" va) "price" = vb := by
    rw [getCell_setCol_ne _ _ hps, hcr, getCell_setCol_same]
  have hvb3 : Cell.num (coerce (getCell (setCol (coerceRow r) "Sales Volume" va) "price")) = vb := by
    rw [hgetP, hvb]
    rfl
  show setCol (setCol (coerceRow r) "Sales Volume"
      (Cell.num (coerce (getCell (coerceRow r) "Sales Volume")))) "price"
      (Cell.num (coerce (getCell (setCol (coerceRow r) "Sales Volume"
        (Cell.num (coerce (getCell (coerceRow r) "Sales Volume")))) "price"))) =
    coerceRow r
  rw [hva2, hvb3, hcr, hr1]
  exact setCol_quad r "Sales Volume" "price" va vb (by decide)

theorem mem_cols_fillList (t : Table) (l : List String) (x : String) (hx : x ∈ t.cols) :
    x ∈ (fillList t l).cols := by
  induction l generalizing t with
  | nil => exact hx
  | cons c l ih =>
    show x ∈ (fillList (if c ∈ t.cols then t else addEmptyCol t c) l).cols
    by_cases hc : c ∈ t.cols
    · rw [if_pos hc]
      exact ih t hx
    · rw [if_neg hc]
      exact ih (addEmptyCol t c) (by simp [addEmptyCol, hx])

theorem target_mem_fillList (t : Table) (l : List String) (x : String) (hx : x ∈ l) :
    x ∈ (fillList t l).cols := by
  induction l generalizing t with
  | nil => cases hx
  | cons c l ih =>
    show x ∈ (fillList (if c ∈ t.cols then t else addEmptyCol t c) l).cols
    rcases List.mem_cons.mp hx with hxc | hxl
    · subst hxc
      by_cases hc : x ∈ t.cols
      · rw [if_pos hc]
        exact mem_cols_fillList t l x hc
      · rw [if_neg hc]
        exact mem_cols_fillList (addEmptyCol t x) l x (by simp [addEmptyCol])
    · by_cases hc : c ∈ t.cols
      · rw [if_pos hc]
        exact ih t hxl
      · rw [if_neg hc]
        exact ih (addEmptyCol t c) hxl

theorem fillList_of_all_mem (t : Table) (l : List String) (h : ∀ c ∈ l, c ∈ t.cols) :
    fillList t l = t := by
  induction l with
  | nil => rfl
  | cons c l ih =>
    show fillList (if c ∈ t.cols then t else addEmptyCol t c) l = t
    rw [if_pos (h c (List.mem_cons_self c l))]
    exact ih (fun d hd => h d (List.mem_cons_of_mem c hd))

theorem coerceCols_cols (t : Table) : (coerceCols t).cols = t.cols := rfl

theorem coerceCols_idem (t : Table) : coerceCols (coerceCols t) = coerceCols t := by
  show Table.mk t.cols ((t.rows.map coerceRow).map coerceRow) = Table.mk t.cols (t.rows.map coerceRow)
  rw [List.map_map]
  exact congrArg _ (List.map_congr_left (fun r _ => coerceRow_idem r))

theorem normalizeTable_cols_supset (t : Table) (c : String) (hc : c ∈ expected_cols) :
    c ∈ (normalizeTable t).cols := by
  show c ∈ (coerceCols (fillList t expected_cols)).cols
  rw [coerceCols_cols]
  exact target_mem_fillList t expected_cols c hc

/-! ### Lemmas about the descending sort -/

theorem mem_insertDesc {x a : Record} {l : List Record} :
    x ∈ insertDesc a l ↔ x = a ∨ x ∈ l := by
  induction l with
  | nil => simp [insertDesc]
  | cons b l ih =>
    show x ∈ (if svKey b < svKey a then a :: b :: l else b :: insertDesc a l) ↔ _
    by_cases h : svKey b < svKey a
    · rw [if_pos h]
      simp
    · rw [if_neg h]
      simp [ih]
      tauto

theorem pairwise_insertDesc (a : Record) (l : List Record)
    (h : l.Pairwise (fun x y => svKey y ≤ svKey x)) :
    (insertDesc a l).Pairwise (fun x y => svKey y ≤ svKey x) := by
  induction l with
  | nil => simp [insertDesc]
  | cons b l ih =>
    rcases List.pairwise_cons.mp h with ⟨hb, hl⟩
    show (if svKey b < svKey a then a :: b :: l else b :: insertDesc a l).Pairwise _
    by_cases hba : svKey b < svKey a
    · rw [if_pos hba]
      refine List.pairwise_cons.mpr ⟨?_, h⟩
      intro y hy
      rcases List.mem_cons.mp hy with hyb | hyl
      · exact hyb ▸ le_of_lt hba
      · exact le_trans (hb y hyl) (le_of_lt hba)
    · rw [if_neg hba]
      refine List.pairwise_cons.mpr ⟨?_, ih hl⟩
      intro y hy
      rcases mem_insertDesc.mp hy with hya | hyl
      · exact hya ▸ le_of_not_lt hba
      · exact hb y hyl

theorem sortDesc_pairwise (l : List Record) :
    (sortDesc l).Pairwise (fun x y => svKey y ≤ svKey x) := by
  induction l with
  | nil => exact List.Pairwise.nil
  | cons a l ih => exact pairwise_insertDesc a (sortDesc l) ih

theorem mem_sortDesc {x : Record} {l : List Record} : x ∈ sortDesc l ↔ x ∈ l := by
  induction l with
  | nil => exact Iff.rfl
  | cons a l ih =>
    show x ∈ insertDesc a (sortDesc l) ↔ _
    rw [mem_insertDesc, ih]
    simp

theorem length_insertDesc (a : Record) (l : List Record) :
    (insertDesc a l).length = l.length + 1 := by
  induction l with
  | nil => rfl
  | cons b l ih =>
    show (if svKey b < svKey a then a :: b :: l else b :: insertDesc a l).length = _
    by_cases h : svKey b < svKey a
    · rw [if_pos h]
      simp
    · rw [if_neg h]
      simp [ih]

theorem length_sortDesc (l : List Record) : (sortDesc l).length = l.length := by
  induction l with
  | nil => rfl
  | cons a l ih =>
    show (insertDesc a (sortDesc l)).length = _
    rw [length_insertDesc, ih]
    rfl

/-! ### Lemmas about group keys -/

theorem mem_dedupF {x : Cell} {l : List Cell} (hx : x ∈ dedupF l) : x ∈ l := by
  induction l with
  | nil => cases hx
  | cons c l ih =>
    rcases List.mem_cons.mp hx with hxc | hxl
    · exact hxc ▸ List.mem_cons_self c l
    · exact List.mem_cons_of_mem c (ih (List.mem_filter.mp hxl).1)

theorem groupKeys_not_na {k : Cell} {rows : List Record} {col : String}
    (hk : k ∈ groupKeys rows col) : k ≠ Cell.na := by
  have hmem := mem_dedupF hk
  rcases List.mem_filterMap.mp hmem with ⟨r, _, hr⟩
  intro hna
  subst hna
  revert hr
  cases h : getCell r col <;> simp [h]

/-! ### Helper lemmas for the filter step and the insight sentences -/

theorem posCell_spec {c : Cell} (h : posCell c = true) :
    ∃ q : ℚ, c = Cell.num q ∧ 0 < q := by
  cases c with
  | na => simp [posCell] at h
  | str s => simp [posCell] at h
  | num q => exact ⟨q, rfl, of_decide_eq_true h⟩

theorem strip_setCol_revenue (r : Record) (v : Cell) :
    (setCol r "Revenue" v).filter (fun p => p.1 != "Revenue") =
      r.filter (fun p => p.1 != "Revenue") := by
  have h0 : ((("Revenue" : String), v).1 != "Revenue") = false := by simp
  simp only [setCol, List.filter_cons, h0, Bool.false_eq_true, if_false]
  exact filter_idem r _

theorem append_ne_empty_left (a b : String) (h : a.length ≠ 0) : a ++ b ≠ "" := by
  intro he
  have hl := congrArg String.length he
  rw [String.length_append] at hl
  have h0 : ("" : String).length = 0 := rfl
  rw [h0] at hl
  omega

theorem posSentence_eq_empty_iff (p : Table) : posSentence p = "" ↔ p.rows = [] := by
  cases hp : p.rows with
  | nil => simp [posSentence, hp]
  | cons r rest =>
    simp only [posSentence, hp]
    constructor
    · intro he
      exact absurd he (append_ne_empty_left _ _ (by
        rw [String.length_append]
        have hu : ("Most sales come from the '").length = 26 := rfl
        omega))
    · intro he
      cases he

theorem seasonSentence_eq_empty_iff (s : Table) : seasonSentence s = "" ↔ s.rows = [] := by
  cases hs : s.rows with
  | nil => simp [seasonSentence, hs]
  | cons r rest =>
    simp only [seasonSentence, hs]
    constructor
    · intro he
      exact absurd he (append_ne_empty_left _ _ (by
        have hu : ("Top season: ").length = 12 := rfl
        omega))
    · intro he
      cases he

theorem originSentence_eq_empty_iff (o : Table) : originSentence o = "" ↔ o.rows = [] := by
  cases ho : o.rows with
  | nil => simp [originSentence, ho]
  | cons r rest =>
    simp only [originSentence, ho]
    constructor
    · intro he
      exact absurd he (append_ne_empty_left _ _ (by
        have hu : ("Strongest region: ").length = 18 := rfl
        omega))
    · intro he
      cases he

theorem filter_triple (a b c : String) :
    ([a, b, c].filter (fun i => i != "")) =
      (if a = "" then [] else [a]) ++ (if b = "" then [] else [b]) ++
        (if c = "" then [] else [c]) := by
  by_cases ha : a = "" <;> by_cases hb : b = "" <;> by_cases hc : c = "" <;>
    simp [List.filter_cons, ha, hb, hc]

/-! ### Claim theorems -/

/-- C4: numeric coercion of a cell value is a total function: every cell,
including non-numeric strings and missing values, yields a number; every
parse failure and every missing value maps to 0. -/
theorem coerce_total_maps_failures_to_zero :
    (∀ c : Cell, ∃ q : ℚ, coerce c = q) ∧
    coerce Cell.na = 0 ∧
    (∀ s : String, parseNumeric s = none → coerce (Cell.str s) = 0) := by
  refine ⟨fun c => ⟨coerce c, rfl⟩, rfl, fun s hs => ?_⟩
  simp [coerce, hs]

/-- Witness for C4 at the concrete non-numeric string "bad". -/
theorem coerce_total_witness : coerce (Cell.str "bad") = 0 :=
  coerce_total_maps_failures_to_zero.2.2 "bad" (by decide)

/-- C5: the page-selection function is total over path strings, always
returning one of the four pages, and returns `overview` for every string
other than "/details", "/advanced", "/insights". -/
theorem change_page_total_default (path : String) :
    (change_page path = Page.overview ∨ change_page path = Page.details ∨
      change_page path = Page.advanced ∨ change_page path = Page.insights) ∧
    (path ≠ "/details" → path ≠ "/advanced" → path ≠ "/insights" →
      change_page path = Page.overview) := by
  constructor
  · unfold change_page
    split_ifs <;> simp
  · intro h1 h2 h3
    unfold change_page
    rw [if_neg h1, if_neg h2, if_neg h3]

/-- Witness for C5 at the root path and the empty string. -/
theorem change_page_witness :
    change_page "/" = Page.overview ∧ change_page "" = Page.overview :=
  ⟨(change_page_total_default "/").2 (by decide) (by decide) (by decide),
   (change_page_total_default "").2 (by decide) (by decide) (by decide)⟩

/-- C6: the Schema Normalizer (fill absent expected columns with "",
then coerce `Sales Volume` and `price`) is idempotent. -/
theorem normalizeTable_idem (t : Table) :
    normalizeTable (normalizeTable t) = normalizeTable t := by
  show coerceCols (fillList (normalizeTable t) expected_cols) = normalizeTable t
  rw [fillList_of_all_mem _ _ (fun c hc => normalizeTable_cols_supset t c hc)]
  exact coerceCols_idem (fillMissing t)

/-- C8: the Filter/Derive step is a pure function of its input (it is a
Lean function, hence deterministic and effect-free), and the Clean Records,
with the derived Revenue column erased, form a sublist of the input rows
(with stray Revenue bindings likewise erased): surviving rows keep their
relative input order. -/
theorem filterDerive_preserves_order (t : Table) :
    ((filterDerive t).rows.map (fun r => r.filter (fun p => p.1 != "Revenue"))).Sublist
      (t.rows.map (fun r => r.filter (fun p => p.1 != "Revenue"))) := by
  show (((t.rows.filter cleanPred).map _).map _).Sublist _
  rw [List.map_map]
  simp only [Function.comp_def]
  have hcomp : (t.rows.filter cleanPred).map (fun r =>
      (setCol r "Revenue" (Cell.num (asQ (getCell r "Sales Volume") * asQ (getCell r "price")))).filter
        (fun p => p.1 != "Revenue")) =
      (t.rows.filter cleanPred).map (fun r => r.filter (fun p => p.1 != "Revenue")) :=
    List.map_congr_left (fun r _ => strip_setCol_revenue r
      (Cell.num (asQ (getCell r "Sales Volume") * asQ (getCell r "price"))))
  rw [hcomp]
  exact (List.filter_sublist t.rows).map _

/-- C2: the guarded grouped-sum `g` always returns rows sorted
non-increasing by their summed Sales Volume, and returns the empty table
(never an error) whenever the input table is empty or the key column is
absent. -/
theorem g_sorted_and_empty_policy (t : Table) (col : String) :
    ((g t col).rows.Pairwise (fun a b => svKey b ≤ svKey a)) ∧
    (t.rows = [] ∨ col ∉ t.cols → g t col = Table.mk [] []) := by
  constructor
  · unfold g
    by_cases h : col ∈ t.cols ∧ t.rows ≠ []
    · rw [if_pos h]
      exact sortDesc_pairwise _
    · rw [if_neg h]
      exact List.Pairwise.nil
  · intro h
    unfold g
    rw [if_neg ?_]
    rintro ⟨hc, hr⟩
    rcases h with h | h
    · exact hr h
    · exact h hc

/-- Witness for C2 at a concrete empty table. -/
theorem g_empty_witness : g (Table.mk ["season"] []) "season" = Table.mk [] [] :=
  (g_sorted_and_empty_policy (Table.mk ["season"] []) "season").2 (Or.inl rfl)

/-- C7: `topN` over the `name` column with `n` greater than the number of
distinct groups returns the whole grouped-sum table (no padding, no
error), still sorted non-increasing by summed Sales Volume. -/
theorem topN_returns_all_groups (t : Table) (n : ℕ)
    (_hname : "name" ∈ t.cols) (h : (groupKeys t.rows "name").length < n) :
    topN t "name" n = groupSumAll t "name" ∧
    (topN t "name" n).rows.Pairwise (fun a b => svKey b ≤ svKey a) := by
  have hlen : (groupSumAll t "name").rows.length ≤ n := by
    show (sortDesc _).length ≤ n
    rw [length_sortDesc, List.length_map]
    exact le_of_lt h
  have hrows : (topN t "name" n).rows = (groupSumAll t "name").rows :=
    List.take_of_length_le hlen
  constructor
  · show Table.mk ["name", "Sales Volume"] ((groupSumAll t "name").rows.take n) = _
    rw [List.take_of_length_le hlen]
    rfl
  · rw [hrows]
    exact sortDesc_pairwise _

/-- Witness for C7: two distinct groups, n = 5. -/
theorem topN_witness :
    topN exampleNames "name" 5 = groupSumAll exampleNames "name" ∧
    (topN exampleNames "name" 5).rows.Pairwise (fun a b => svKey b ≤ svKey a) :=
  topN_returns_all_groups exampleNames 5 (by decide) (by decide)

/-- C9: each data-derived insight sentence is shown exactly when its
source aggregate table is non-empty, and omitted when it is empty. -/
theorem insights_shown_iff_nonempty (p s o : Table) :
    insightsShown p s o =
      (if p.rows = [] then [] else [posSentence p]) ++
      (if s.rows = [] then [] else [seasonSentence s]) ++
      (if o.rows = [] then [] else [originSentence o]) := by
  show ([posSentence p, seasonSentence s, originSentence o].filter (fun i => i != "")) = _
  rw [filter_triple]
  simp only [posSentence_eq_empty_iff, seasonSentence_eq_empty_iff,
    originSentence_eq_empty_iff]

/-- C1 counterexample: on the empty input table the Clean Records table is
empty, yet the average-price KPI is NaN (`none`), not the number 0 —
pandas `Series.mean()` of an empty series is NaN. -/
theorem avg_price_nan_on_empty_cex :
    (filterDerive (normalizeTable (Table.mk [] []))).rows = [] ∧
    avg_price (filterDerive (normalizeTable (Table.mk [] []))) = none ∧
    avg_price (filterDerive (normalizeTable (Table.mk [] []))) ≠ some 0 := by
  decide

/-- C1 (amended): on an empty Clean Records table, total revenue, total
units and the unique-product count are 0, and the average price is NaN
(no numeric value), not 0. -/
theorem kpi_defaults_on_empty (clean : Table) (h : clean.rows = []) :
    total_revenue clean = 0 ∧ total_units clean = 0 ∧
    unique_products clean = 0 ∧ avg_price clean = none := by
  simp [total_revenue, total_units, unique_products, avg_price, h, dedupF]

/-- Witness for the amended C1 at a concrete empty table. -/
theorem kpi_defaults_witness :
    total_revenue (Table.mk [] []) = 0 ∧ total_units (Table.mk [] []) = 0 ∧
    unique_products (Table.mk [] []) = 0 ∧ avg_price (Table.mk [] []) = none :=
  kpi_defaults_on_empty (Table.mk [] []) rfl

/-- Membership specification of the Filter/Derive step over any table. -/
theorem filterDerive_mem_spec (u : Table) :
    ∀ r ∈ (filterDerive u).rows,
      r.filter (fun p => p.1 != "Revenue") ∈
        (u.rows.map (fun r0 => r0.filter (fun p => p.1 != "Revenue"))) ∧
      ∃ sv pr : ℚ, getCell r "Sales Volume" = Cell.num sv ∧
        getCell r "price" = Cell.num pr ∧ 0 < sv ∧ 0 < pr ∧
        getCell r "Revenue" = Cell.num (sv * pr) := by
  intro r hr
  rcases List.mem_map.mp hr with ⟨r0, hr0, hrEq⟩
  have hr0mem : r0 ∈ u.rows := (List.mem_filter.mp hr0).1
  have hpred : cleanPred r0 = true := (List.mem_filter.mp hr0).2
  rcases Bool.and_eq_true_iff.mp hpred with ⟨hsv, hpr⟩
  rcases posCell_spec hsv with ⟨sv, hsvEq, hsvPos⟩
  rcases posCell_spec hpr with ⟨pr, hprEq, hprPos⟩
  subst hrEq
  refine ⟨?_, sv, pr, ?_, ?_, hsvPos, hprPos, ?_⟩
  · rw [strip_setCol_revenue]
    exact List.mem_map_of_mem _ hr0mem
  · rw [getCell_setCol_ne _ _ (by decide : ("Sales Volume" : String) ≠ "Revenue")]
    exact hsvEq
  · rw [getCell_setCol_ne _ _ (by decide : ("price" : String) ≠ "Revenue")]
    exact hprEq
  · rw [getCell_setCol_same, hsvEq, hprEq]
    rfl

/-- C3: every Clean Record, with its derived Revenue binding erased, is one
of the normalized records (likewise viewed without a Revenue binding), and
every Clean Record has a positive numeric Sales Volume, a positive numeric
price, and Revenue equal to their product. -/
theorem clean_records_subset_and_positive (t : Table) :
    ∀ r ∈ (filterDerive (normalizeTable t)).rows,
      r.filter (fun p => p.1 != "Revenue") ∈
        ((normalizeTable t).rows.map (fun r0 => r0.filter (fun p => p.1 != "Revenue"))) ∧
      ∃ sv pr : ℚ, getCell r "Sales Volume" = Cell.num sv ∧
        getCell r "price" = Cell.num pr ∧ 0 < sv ∧ 0 < pr ∧
        getCell r "Revenue" = Cell.num (sv * pr) :=
  filterDerive_mem_spec (normalizeTable t)

/-- Witness for C3 at the specification's worked three-row example: the
single surviving Clean Record. -/
theorem clean_records_witness :
    exampleCleanRow.filter (fun p => p.1 != "Revenue") ∈
      ((normalizeTable exampleRaw).rows.map
        (fun r0 => r0.filter (fun p => p.1 != "Revenue"))) ∧
    ∃ sv pr : ℚ, getCell exampleCleanRow "Sales Volume" = Cell.num sv ∧
      getCell exampleCleanRow "price" = Cell.num pr ∧ 0 < sv ∧ 0 < pr ∧
      getCell exampleCleanRow "Revenue" = Cell.num (sv * pr) :=
  clean_records_subset_and_positive exampleRaw exampleCleanRow
    (by
      have h : (filterDerive (normalizeTable exampleRaw)).rows = [exampleCleanRow] := rfl
      rw [h]
      exact List.mem_singleton.mpr rfl)

/-- C10: grouping silently drops rows whose key cell is missing — no row
of any aggregate table carries a NaN key — and on the concrete
`exampleNaKey` input (one Clean Record with a NaN `origin`) the Sales
Volume total over the origin Aggregate Table is strictly less than the
total-units KPI over all Clean Records. -/
theorem groupby_drops_na_keys :
    (∀ (t : Table) (col : String), ∀ r ∈ (g t col).rows, getCell r col ≠ Cell.na) ∧
    aggUnits (g (filterDerive (normalizeTable exampleNaKey)) "origin") <
      total_units (filterDerive (normalizeTable exampleNaKey)) := by
  constructor
  · intro t col r hr
    unfold g at hr
    by_cases h : col ∈ t.cols ∧ t.rows ≠ []
    · rw [if_pos h] at hr
      have hr2 := mem_sortDesc.mp hr
      rcases List.mem_map.mp hr2 with ⟨k, hk, hkEq⟩
      have hg : getCell r col = k := by
        rw [← hkEq]
        simp [getCell, List.lookup]
      rw [hg]
      exact groupKeys_not_na hk
    · rw [if_neg h] at hr
      cases hr
  · have h1 : aggUnits (g (filterDerive (normalizeTable exampleNaKey)) "origin") =
        (((5 : ℕ) : ℚ) + 0) + 0 := rfl
    have h2 : total_units (filterDerive (normalizeTable exampleNaKey)) =
        ((5 : ℕ) : ℚ) + (((3 : ℕ) : ℚ) + 0) := rfl
    rw [h1, h2]
    norm_num

/-- Witness for C10: the single aggregate row of the `origin` table of the
`exampleNaKey` pipeline has a non-NaN key. -/
theorem groupby_drops_na_witness :
    getCell [("origin", Cell.str "X"),
      ("Sales Volume", Cell.num (((5 : ℕ) : ℚ) + 0))] "origin" ≠ Cell.na :=
  groupby_drops_na_keys.1 (filterDerive (normalizeTable exampleNaKey)) "origin"
    [("origin", Cell.str "X"), ("Sales Volume", Cell.num (((5 : ℕ) : ℚ) + 0))]
    (by
      have h : (g (filterDerive (normalizeTable exampleNaKey)) "origin").rows =
          [[("origin", Cell.str "X"),
            ("Sales Volume", Cell.num (((5 : ℕ) : ℚ) + 0))]] := rfl
      rw [h]
      exact List.mem_singleton.mpr rfl)
